import Mathlib

/-!
Verification of the fractus trading core (src/fract/model/base.py and
src/fract/model/ewma.py) against its natural-language specification.

The Python code is shallowly embedded: machine floats are modelled as
rationals, the decision branches of BaseTrader.determine_sig_state as a
total Lean function, and the side-effecting order/loop procedures as
functions returning explicit event traces.
-/

/-- Position side, as stored in TraderCore.pos_dict entries
(the side key, values long or short). -/
inductive Side where
  | long
  | short
deriving DecidableEq, Fintype, Repr

/-- Signal / action values produced by Ewma.detect_signal (sig_act) and by
BaseTrader.determine_sig_state (act): long, short or closing; the Python
None is modelled with Option. -/
inductive SigAct where
  | long
  | short
  | closing
deriving DecidableEq, Fintype, Repr

/-- The state labels assigned by BaseTrader.determine_sig_state; the
percentage-formatted labels of the source are abstracted to holdLong and
holdShort (the numeric percentage does not influence the action). -/
inductive StateLabel where
  | tradingHalted
  | closing
  | noFund
  | lackOfFunds
  | overSpread
  | holdLong
  | shortToLong
  | toLong
  | holdShort
  | longToShort
  | toShort
  | dash
deriving DecidableEq, Fintype, Repr

/-- The inputs inspected by BaseTrader.determine_sig_state, with the three
health checks it calls (int(balance) == 0, _is_margin_lack,
_is_over_spread) abstracted to the booleans they return. -/
structure DecisionInput where
  tradeable : Bool
  sigAct : Option SigAct
  noFund : Bool
  marginLack : Bool
  overSpread : Bool
  posSide : Option Side
deriving DecidableEq, Repr

/-- BaseTrader.determine_sig_state (src/fract/model/base.py lines 401-461):
the if/elif decision chain mapping the inputs to the pair
(act, state label).  Translated branch for branch from the source. -/
def determine_sig_state (d : DecisionInput) : Option SigAct × StateLabel :=
  if d.tradeable = false then (none, StateLabel.tradingHalted)
  else if d.sigAct = some SigAct.closing then (some SigAct.closing, StateLabel.closing)
  else if d.noFund then (none, StateLabel.noFund)
  else if d.marginLack then (none, StateLabel.lackOfFunds)
  else if d.overSpread then (none, StateLabel.overSpread)
  else if d.sigAct = some SigAct.long then
    match d.posSide with
    | some Side.long => (none, StateLabel.holdLong)
    | some Side.short => (some SigAct.long, StateLabel.shortToLong)
    | none => (some SigAct.long, StateLabel.toLong)
  else if d.sigAct = some SigAct.short then
    match d.posSide with
    | some Side.short => (none, StateLabel.holdShort)
    | some Side.long => (some SigAct.short, StateLabel.longToShort)
    | none => (some SigAct.short, StateLabel.toShort)
  else
    match d.posSide with
    | some Side.long => (none, StateLabel.holdLong)
    | some Side.short => (none, StateLabel.holdShort)
    | none => (none, StateLabel.dash)

/-- Modelled from the spec: the DecisionEngine transition table of spec
section 4.3, written as an ordered rule list (guard, result), evaluated in
the spec's priority order with the first matching rule deciding. -/
def spec_transition_rules :
    List ((DecisionInput → Bool) × (DecisionInput → Option SigAct × StateLabel)) :=
  [ (fun d => !d.tradeable, fun _ => (none, StateLabel.tradingHalted)),
    (fun d => decide (d.sigAct = some SigAct.closing),
      fun _ => (some SigAct.closing, StateLabel.closing)),
    (fun d => d.noFund, fun _ => (none, StateLabel.noFund)),
    (fun d => d.marginLack, fun _ => (none, StateLabel.lackOfFunds)),
    (fun d => d.overSpread, fun _ => (none, StateLabel.overSpread)),
    (fun d => decide (d.sigAct = some SigAct.long),
      fun d =>
        match d.posSide with
        | some Side.long => (none, StateLabel.holdLong)
        | some Side.short => (some SigAct.long, StateLabel.shortToLong)
        | none => (some SigAct.long, StateLabel.toLong)),
    (fun d => decide (d.sigAct = some SigAct.short),
      fun d =>
        match d.posSide with
        | some Side.short => (none, StateLabel.holdShort)
        | some Side.long => (some SigAct.short, StateLabel.longToShort)
        | none => (some SigAct.short, StateLabel.toShort)),
    (fun _ => true,
      fun d =>
        match d.posSide with
        | some Side.long => (none, StateLabel.holdLong)
        | some Side.short => (none, StateLabel.holdShort)
        | none => (none, StateLabel.dash)) ]

/-- Modelled from the spec: first-match evaluation of the transition table;
returns none only if no rule matches (the table would be partial). -/
def spec_decision (d : DecisionInput) : Option (Option SigAct × StateLabel) :=
  (spec_transition_rules.find? (fun r => r.1 d)).map (fun r => r.2 d)

/-- C1: for every combination of position state, signal action and health
predicates, the spec's priority-ordered first-match transition table
matches some rule (totality: exactly one action results) and its verdict
coincides with the decision chain of determine_sig_state in the source. -/
theorem determine_sig_state_matches_spec_table :
    ∀ (t nf ml os : Bool) (sa : Option SigAct) (ps : Option Side),
      spec_decision ⟨t, sa, nf, ml, os, ps⟩ =
        some (determine_sig_state ⟨t, sa, nf, ml, os, ps⟩) := by
  decide

/-- Python int() applied to an exact numeric value: truncation toward
zero (floor for nonnegative values, ceiling for negative ones). -/
def pyint (q : ℚ) : ℤ :=
  if 0 ≤ q then ⌊q⌋ else ⌈q⌉

/-- BaseTrader._is_margin_lack (src/fract/model/base.py lines 479-484):
true when the instrument has no entry in pos_dict and the available margin
is at most balance times the preserve ratio from the config. -/
def is_margin_lack (pos : Option Side) (marginAvail balance preserve : ℚ) : Bool :=
  pos.isNone && decide (marginAvail ≤ balance * preserve)

/-- BaseTrader._is_over_spread (src/fract/model/base.py lines 486-492):
true when (ask - bid) / (ask + bid) * 2 of the latest rate row is at least
the configured max_spread ratio. -/
def is_over_spread (ask bid maxSpread : ℚ) : Bool :=
  decide ((ask - bid) / (ask + bid) * 2 ≥ maxSpread)

/-- BaseTrader.determine_sig_state with its health checks computed from the
account and rate data exactly as the source computes them: noFund is
int(balance) == 0, marginLack is _is_margin_lack, overSpread is
_is_over_spread on the latest ask/bid. -/
def determine_sig_state_full (tradeable : Bool) (sigAct : Option SigAct)
    (balance marginAvail preserve ask bid maxSpread : ℚ)
    (pos : Option Side) : Option SigAct × StateLabel :=
  determine_sig_state
    ⟨tradeable, sigAct, pyint balance == 0,
      is_margin_lack pos marginAvail balance preserve,
      is_over_spread ask bid maxSpread, pos⟩

/-- C9 counterexample: with spread ratio 0.002 against max_spread 0.001 the
over-spread check is true, yet with signal closing the decision is
(closing, CLOSING), not Hold with OVER-SPREAD: the closing branch has
higher priority, so the hold is not regardless of signal. -/
theorem over_spread_not_regardless_of_signal :
    is_over_spread 1001 999 (1 / 1000) = true
    ∧ determine_sig_state_full true (some SigAct.closing) 1000 1000 0 1001 999
        (1 / 1000) none ≠ (none, StateLabel.overSpread) := by
  refine ⟨?_, ?_⟩
  · simp only [is_over_spread, ge_iff_le, decide_eq_true_eq]
    norm_num
  · simp [determine_sig_state_full, determine_sig_state]

/-- C9 amended: the spread ratio (ask - bid) / (ask + bid) * 2 of the source
equals (ask - bid) / ((ask + bid) / 2); the over-spread check is true
exactly when that ratio is at least max_spread; and when it is true, the
instrument is tradeable, the signal is not closing, the truncated balance
is nonzero and margin lack does not apply, the decision is Hold with state
OVER-SPREAD regardless of any directional signal or position. -/
theorem over_spread_forces_hold
    (ask bid maxSpread balance marginAvail preserve : ℚ)
    (sigAct : Option SigAct) (pos : Option Side)
    (hsig : sigAct ≠ some SigAct.closing)
    (hbal : pyint balance ≠ 0)
    (hml : is_margin_lack pos marginAvail balance preserve = false)
    (hsp : maxSpread ≤ (ask - bid) / ((ask + bid) / 2)) :
    (ask - bid) / (ask + bid) * 2 = (ask - bid) / ((ask + bid) / 2)
    ∧ (is_over_spread ask bid maxSpread = true
        ↔ maxSpread ≤ (ask - bid) / ((ask + bid) / 2))
    ∧ determine_sig_state_full true sigAct balance marginAvail preserve ask bid
        maxSpread pos = (none, StateLabel.overSpread) := by
  have heq : (ask - bid) / (ask + bid) * 2 = (ask - bid) / ((ask + bid) / 2) := by
    rw [div_div_eq_mul_div, div_mul_eq_mul_div]
  have hiff : is_over_spread ask bid maxSpread = true
      ↔ maxSpread ≤ (ask - bid) / ((ask + bid) / 2) := by
    simp [is_over_spread, ge_iff_le, heq]
  have hover : is_over_spread ask bid maxSpread = true := hiff.mpr hsp
  have hnb : (pyint balance == 0) = false := by
    simpa using hbal
  refine ⟨heq, hiff, ?_⟩
  unfold determine_sig_state_full determine_sig_state
  simp [hnb, hml, hover, hsig]

/-- C9 witness: the amended theorem instantiated at the spec scenario,
ratio 0.002 against max_spread 0.001 with a directional long signal. -/
theorem over_spread_forces_hold_witness :
    determine_sig_state_full true (some SigAct.long) 1000 1000 0 1001 999
      (1 / 1000) none = (none, StateLabel.overSpread) :=
  (over_spread_forces_hold 1001 999 (1 / 1000) 1000 1000 0 (some SigAct.long)
    none (by decide) (by norm_num [pyint]) (by norm_num [is_margin_lack])
    (by norm_num)).2.2

/-- C10: the margin-lack check is false whenever the instrument has an open
position, it is true exactly when the instrument is flat and the available
margin is at most balance times the preserve ratio, and the LACK OF FUNDS
state can only be reached with no open position. -/
theorem margin_lack_only_when_flat (pos : Option Side)
    (marginAvail balance preserve : ℚ) :
    (pos ≠ none → is_margin_lack pos marginAvail balance preserve = false)
    ∧ (is_margin_lack pos marginAvail balance preserve = true
        ↔ pos = none ∧ marginAvail ≤ balance * preserve)
    ∧ (∀ (tradeable : Bool) (sigAct : Option SigAct) (ask bid maxSpread : ℚ),
        (determine_sig_state_full tradeable sigAct balance marginAvail preserve
            ask bid maxSpread pos).2 = StateLabel.lackOfFunds → pos = none) := by
  refine ⟨?_, ?_, ?_⟩
  · intro hne
    rcases pos with _ | s
    · exact absurd rfl hne
    · simp [is_margin_lack]
  · simp [is_margin_lack, Bool.and_eq_true, Option.isNone_iff_eq_none,
      decide_eq_true_iff]
  · intro t sa ask bid ms h
    rcases hpos : pos with _ | s
    · rfl
    · exfalso
      subst hpos
      unfold determine_sig_state_full determine_sig_state at h
      have hml : is_margin_lack (some s) marginAvail balance preserve = false := by
        simp [is_margin_lack]
      rw [hml] at h
      generalize (pyint balance == 0) = b0 at h
      generalize is_over_spread ask bid ms = b1 at h
      revert h
      rcases t <;> rcases b0 <;> rcases b1 <;> rcases s <;>
        rcases sa with _ | a <;> first | (rcases a <;> simp) | simp

/-- C10 witness: with an open long position the margin-lack check is false
even though available margin 0 is below balance times preserve ratio. -/
theorem margin_lack_only_when_flat_witness :
    is_margin_lack (some Side.long) 0 100 1 = false :=
  (margin_lack_only_when_flat (some Side.long) 0 100 1).1 (by decide)

/-- Whether an action label equals the side label of the open position
(the source compares the strings long, short, closing). -/
def act_matches_side (a : SigAct) (s : Side) : Bool :=
  match a, s with
  | SigAct.long, Side.long => true
  | SigAct.short, Side.short => true
  | _, _ => false

/-- The condition under which TraderCore.design_and_place_order first
closes the open position (src/fract/model/base.py line 204): an action is
present, a position is open, and the action is closing or differs from the
position's side. -/
def needs_close (act : Option SigAct) (pos : Option Side) : Bool :=
  match act, pos with
  | some a, some s => decide (a = SigAct.closing) || !(act_matches_side a s)
  | _, _ => false

/-- Broker-facing steps of TraderCore.design_and_place_order, in order. -/
inductive OrderEvent where
  | closePosition (instrument : String)
  | refreshTxnList
  | createOrder (instrument : String) (side : SigAct)
deriving DecidableEq, Repr

/-- The statement order of TraderCore.design_and_place_order
(src/fract/model/base.py lines 202-219), with each called step assumed to
complete: possibly a close of the open position followed by a
transaction-list re-read, then, for a directional action, the
market-order placement.  This is the intended sequence only: in the
source every _place_order call raises TypeError while building f_args
(see f_args_build below), so the actual execution, modelled by
design_and_place_order_run, aborts inside the first call. -/
def design_and_place_order (instrument : String) (act : Option SigAct)
    (pos : Option Side) : List OrderEvent :=
  (if needs_close act pos then
    [OrderEvent.closePosition instrument, OrderEvent.refreshTxnList]
  else [])
  ++ (match act with
      | some SigAct.long => [OrderEvent.createOrder instrument SigAct.long]
      | some SigAct.short => [OrderEvent.createOrder instrument SigAct.short]
      | _ => [])

/-- The single element of the inner brace display in the f_args
construction of TraderCore._place_order (src/fract/model/base.py lines
104-107): the string ALL or NONE when closing (depending on whether the
instrument has an open position), the empty dict otherwise.  The display
carries no key-value colon, so it is a Python set display, not a dict
display. -/
inductive FArgsSetElem where
  | allStr
  | noneStr
  | emptyDict
deriving DecidableEq, Repr

/-- Constructing the one-element set of the display: set elements must be
hashable and a dict is not, so the construction raises TypeError for the
empty-dict element and succeeds for the strings. -/
def build_inner_set : FArgsSetElem → Except String FArgsSetElem
  | FArgsSetElem.emptyDict => Except.error "TypeError: unhashable type: dict"
  | e => Except.ok e

/-- Double-star unpacking of the constructed set into the surrounding
dict display: the argument after a double star must be a mapping, and a
set is not one, so the unpacking raises TypeError for every set. -/
def unpack_set_as_mapping : FArgsSetElem → Except String Unit :=
  fun _ => Except.error "TypeError: set is not a mapping"

/-- The f_args construction of TraderCore._place_order
(src/fract/model/base.py lines 102-108), evaluated before the try block:
the inner set display is built (the conditional expression is lazy, so
the non-closing branch builds the set of the empty dict) and then
double-star unpacked; with closing the unpacking fails, without closing
the set construction itself fails, so every call raises TypeError before
the try block is reached. -/
def f_args_build (closing instrumentInPos : Bool) : Except String Unit :=
  match build_inner_set
      (if closing then
        (if instrumentInPos then FArgsSetElem.allStr else FArgsSetElem.noneStr)
      else FArgsSetElem.emptyDict) with
  | Except.error e => Except.error e
  | Except.ok s => unpack_set_as_mapping s

/-- The outcome of the try block of TraderCore._place_order. -/
inductive PlacedKind where
  | dryRecord
  | closed
  | created
deriving DecidableEq, Repr

/-- Observable effects of TraderCore._place_order around the try block:
error logging, order-log persistence, the dry-run record, response
logging, and the half-second sleep of the no-log success path. -/
inductive PlaceEffect where
  | logError
  | writeOrderLog
  | logDryRunRequest
  | logResponse
  | sleepHalf
deriving DecidableEq, Repr

/-- The try block of TraderCore._place_order (src/fract/model/base.py
lines 109-118): in dry-run mode only a request record is built, so the
broker outcome is never consulted; otherwise position.close or
order.create is invoked and any broker exception escapes as the error.
In the source this block is unreachable: the f_args construction raises
TypeError before the try on every call. -/
def place_order_attempt (dryRun closing : Bool)
    (broker : Except String Unit) : Except String PlacedKind :=
  if dryRun then Except.ok PlacedKind.dryRecord
  else if closing then broker.map (fun _ => PlacedKind.closed)
  else broker.map (fun _ => PlacedKind.created)

/-- The try/except/else handling of TraderCore._place_order
(src/fract/model/base.py lines 109-133) around the attempt, returning the
ordered list of observable effects; this is the part of the function
after the f_args construction, reached only if that construction were to
succeed. -/
def place_order_try_handled (dryRun closing logConfigured : Bool)
    (broker : Except String Unit) : List PlaceEffect :=
  match place_order_attempt dryRun closing broker with
  | Except.error _ =>
      PlaceEffect.logError ::
        (if logConfigured then [PlaceEffect.writeOrderLog] else [])
  | Except.ok PlacedKind.dryRecord => [PlaceEffect.logDryRunRequest]
  | Except.ok _ =>
      PlaceEffect.logResponse ::
        (if logConfigured then [PlaceEffect.writeOrderLog]
         else [PlaceEffect.sleepHalf])

/-- TraderCore._place_order (src/fract/model/base.py lines 101-133) in
full: the f_args construction runs first and outside the try block, so
its TypeError propagates to the caller; only on its success would the
try/except/else around the broker attempt produce the effect list. -/
def place_order (dryRun closing logConfigured instrumentInPos : Bool)
    (broker : Except String Unit) : Except String (List PlaceEffect) :=
  match f_args_build closing instrumentInPos with
  | Except.error e => Except.error e
  | Except.ok _ =>
      Except.ok (place_order_try_handled dryRun closing logConfigured broker)

/-- Behavior of the try/except/else part alone, had f_args construction
succeeded (the intent the spec describes): a broker error is logged,
appended to the order log exactly when a log directory is configured, and
the handler returns an effect list; in dry-run the attempt never consults
the broker and only the would-be request is recorded. -/
theorem place_order_handler_traps_errors (closing logConfigured : Bool)
    (e : String) (broker : Except String Unit) :
    place_order_try_handled true closing logConfigured broker
      = [PlaceEffect.logDryRunRequest]
    ∧ place_order_attempt true closing broker
        = Except.ok PlacedKind.dryRecord
    ∧ place_order_try_handled false closing logConfigured (Except.error e)
        = PlaceEffect.logError ::
            (if logConfigured then [PlaceEffect.writeOrderLog] else [])
    ∧ PlaceEffect.logError
        ∈ place_order_try_handled false closing logConfigured (Except.error e)
    ∧ (PlaceEffect.writeOrderLog
          ∈ place_order_try_handled false closing logConfigured
              (Except.error e)
        ↔ logConfigured = true) := by
  rcases closing <;> rcases logConfigured <;>
    exact ⟨rfl, rfl, rfl,
      by simp [place_order_try_handled, place_order_attempt, Except.map],
      by simp [place_order_try_handled, place_order_attempt, Except.map]⟩

/-- C8 code bug: every call of _place_order raises TypeError while
building f_args, before the try block - with closing the one-element set
display cannot be double-star unpacked as a mapping, without closing the
set of the empty dict cannot even be constructed - so the error
propagates to the caller and no broker call, log write or dry-run record
ever happens; the try/except/else that the claim describes is never
reached. -/
theorem place_order_always_raises
    (dryRun logConfigured instrumentInPos : Bool)
    (broker : Except String Unit) :
    place_order dryRun true logConfigured instrumentInPos broker
      = Except.error "TypeError: set is not a mapping"
    ∧ place_order dryRun false logConfigured instrumentInPos broker
      = Except.error "TypeError: unhashable type: dict" := by
  rcases instrumentInPos <;> exact ⟨rfl, rfl⟩

/-- TraderCore.design_and_place_order (src/fract/model/base.py lines
202-219) with _place_order modelled faithfully: each call first evaluates
the f_args construction, and design_and_place_order has no handler, so a
TypeError aborts the whole function; the result pairs the broker-facing
steps completed before any abort with the propagated error, if one
occurred. -/
def design_and_place_order_run (instrument : String) (act : Option SigAct)
    (pos : Option Side) (instrumentInPos : Bool) :
    List OrderEvent × Option String :=
  if needs_close act pos then
    match f_args_build true instrumentInPos with
    | Except.error e => ([], some e)
    | Except.ok _ =>
        match act with
        | some SigAct.long =>
            (match f_args_build false instrumentInPos with
              | Except.error e =>
                  ([OrderEvent.closePosition instrument,
                    OrderEvent.refreshTxnList], some e)
              | Except.ok _ =>
                  ([OrderEvent.closePosition instrument,
                    OrderEvent.refreshTxnList,
                    OrderEvent.createOrder instrument SigAct.long], none))
        | some SigAct.short =>
            (match f_args_build false instrumentInPos with
              | Except.error e =>
                  ([OrderEvent.closePosition instrument,
                    OrderEvent.refreshTxnList], some e)
              | Except.ok _ =>
                  ([OrderEvent.closePosition instrument,
                    OrderEvent.refreshTxnList,
                    OrderEvent.createOrder instrument SigAct.short], none))
        | _ =>
            ([OrderEvent.closePosition instrument,
              OrderEvent.refreshTxnList], none)
  else
    match act with
    | some SigAct.long =>
        (match f_args_build false instrumentInPos with
          | Except.error e => ([], some e)
          | Except.ok _ =>
              ([OrderEvent.createOrder instrument SigAct.long], none))
    | some SigAct.short =>
        (match f_args_build false instrumentInPos with
          | Except.error e => ([], some e)
          | Except.ok _ =>
              ([OrderEvent.createOrder instrument SigAct.short], none))
    | _ => ([], none)

/-- C6 code bug: the statement order of the source does put the close,
then the transaction re-read, before any order placement, matching the
claim as intent; but whenever the close branch is taken the close call
raises TypeError during the f_args construction, before any broker
request, so the function aborts with no completed step and the re-read at
line 207 never runs: the claimed close-then-re-read sequence occurs in no
execution. -/
theorem design_and_place_order_close_call_raises (instrument : String)
    (act : Option SigAct) (pos : Option Side) (instrumentInPos : Bool)
    (h : needs_close act pos = true) :
    design_and_place_order_run instrument act pos instrumentInPos
      = ([], some "TypeError: set is not a mapping")
    ∧ (design_and_place_order instrument act pos).take 2
      = [OrderEvent.closePosition instrument, OrderEvent.refreshTxnList] := by
  constructor
  · rcases instrumentInPos <;>
      simp [design_and_place_order_run, f_args_build, build_inner_set,
        unpack_set_as_mapping, h]
  · unfold design_and_place_order
    rw [h]
    rfl

/-- C6 witness: a long action against an open short position (a reversal)
aborts with the f_args TypeError and an empty completed-step trace, while
the statement order lists close and re-read first. -/
theorem design_and_place_order_close_call_raises_witness :
    design_and_place_order_run "EUR_USD" (some SigAct.long)
        (some Side.short) true
      = ([], some "TypeError: set is not a mapping")
    ∧ (design_and_place_order "EUR_USD" (some SigAct.long)
        (some Side.short)).take 2
      = [OrderEvent.closePosition "EUR_USD", OrderEvent.refreshTxnList] :=
  design_and_place_order_close_call_raises "EUR_USD" (some SigAct.long)
    (some Side.short) true (by decide)

/-- Events of one pass of the BaseTrader.invoke control loop; waitMin sec
stands for TraderCore._sleep padding the elapsed time since the refresh
start up to sec seconds. -/
inductive LoopEvent where
  | refreshAccount
  | waitMin (sec : ℚ)
  | refreshTxnList
  | refreshInstDict
  | refreshRateDict
  | refreshUnitCosts
  | expirePositions
  | makeDecision (instrument : String)
deriving DecidableEq, Repr

/-- TraderCore.refresh_oanda_dicts (src/fract/model/base.py lines 135-144)
as its ordered call trace: account refresh, then the transaction list,
instrument dict and rate dict with minimum spacings of 0.5, 1 and 1.5
seconds from the refresh start, then the unit-cost refresh. -/
def refresh_oanda_dicts_trace : List LoopEvent :=
  [LoopEvent.refreshAccount, LoopEvent.waitMin (1 / 2),
   LoopEvent.refreshTxnList, LoopEvent.waitMin 1,
   LoopEvent.refreshInstDict, LoopEvent.waitMin (3 / 2),
   LoopEvent.refreshRateDict, LoopEvent.refreshUnitCosts]

/-- One cycle of BaseTrader.invoke (src/fract/model/base.py lines
377-384): the expiry sweep runs first, then each configured instrument in
order gets a full snapshot refresh immediately followed by its
decision. -/
def invoke_cycle_trace (instruments : List String) : List LoopEvent :=
  LoopEvent.expirePositions ::
    instruments.flatMap
      (fun i => refresh_oanda_dicts_trace ++ [LoopEvent.makeDecision i])

/-- Modelled from the spec: the cycle order claimed in section 4.5 and the
claim - one full snapshot refresh first, then the expiry sweep, and only
then the per-instrument decisions in order. -/
def spec_cycle_trace (instruments : List String) : List LoopEvent :=
  refresh_oanda_dicts_trace ++ [LoopEvent.expirePositions]
    ++ instruments.map LoopEvent.makeDecision

/-- C7 counterexample: with one configured instrument the cycle trace of
the source differs from the claimed order - the expiry sweep comes first,
before any snapshot refresh, and the refresh happens inside the
per-instrument loop. -/
theorem invoke_cycle_not_refresh_first :
    invoke_cycle_trace ["EUR_USD"] ≠ spec_cycle_trace ["EUR_USD"] := by
  simp [invoke_cycle_trace, spec_cycle_trace, refresh_oanda_dicts_trace]

/-- The instrument of a decision event, none for every other event. -/
def decision_instrument : LoopEvent → Option String := fun e =>
  match e with
  | LoopEvent.makeDecision i => some i
  | _ => none

/-- Modelled from the amended claim: the expiry sweep first, then for each
configured instrument in order the full spaced snapshot refresh
immediately followed by that instrument's decision. -/
def amended_cycle_trace (instruments : List String) : List LoopEvent :=
  LoopEvent.expirePositions ::
    instruments.flatMap
      (fun i =>
        [LoopEvent.refreshAccount, LoopEvent.waitMin (1 / 2),
         LoopEvent.refreshTxnList, LoopEvent.waitMin 1,
         LoopEvent.refreshInstDict, LoopEvent.waitMin (3 / 2),
         LoopEvent.refreshRateDict, LoopEvent.refreshUnitCosts,
         LoopEvent.makeDecision i])

/-- C7 amended: every cycle starts with the expiry sweep, the decisions
happen in the configured instrument order, and each decision is directly
preceded by the full snapshot refresh in the fixed order account, then
transactions, then instruments, then rates, with the fixed minimum
spacings between the calls. -/
theorem invoke_cycle_sweep_then_refresh_per_instrument
    (instruments : List String) :
    invoke_cycle_trace instruments = amended_cycle_trace instruments
    ∧ (invoke_cycle_trace instruments).head? = some LoopEvent.expirePositions
    ∧ (invoke_cycle_trace instruments).filterMap decision_instrument
        = instruments := by
  refine ⟨?_, rfl, ?_⟩
  · unfold invoke_cycle_trace amended_cycle_trace
    induction instruments with
    | nil => rfl
    | cons i t ih =>
        simp only [List.flatMap_cons, refresh_oanda_dicts_trace] at *
        simp [ih]
  · unfold invoke_cycle_trace
    induction instruments with
    | nil => rfl
    | cons i t ih =>
        simp only [List.flatMap_cons, List.filterMap_cons, List.filterMap_append,
          refresh_oanda_dicts_trace, decision_instrument] at *
        simpa using ih

/-- Sum of a list of rationals. -/
def listSum (xs : List ℚ) : ℚ := xs.foldl (· + ·) 0

/-- The exponential weights used by pandas Series.ewm(alpha) with the
default adjust=True: weight (1 - alpha)^j for the observation j steps
before the last one. -/
def ewmWeights (alpha : ℚ) (n : ℕ) : List ℚ :=
  (List.range n).map (fun j => (1 - alpha) ^ j)

/-- Ewma._ewm_stats (src/fract/model/ewma.py lines 47-54), mean part: the
last element of series.ewm(alpha).mean(), the weighted mean of the series
under the adjust=True exponential weights. -/
def ewmMean (alpha : ℚ) (xs : List ℚ) : ℚ :=
  listSum (List.zipWith (· * ·) (ewmWeights alpha xs.length) xs.reverse)
    / listSum (ewmWeights alpha xs.length)

/-- Ewma._ewm_stats, variance part: the debiased (default bias=False)
exponentially weighted variance behind the last element of
series.ewm(alpha).std(); the std itself is its square root, carried in
the theorems as a nonnegative square-root witness value. -/
def ewmVar (alpha : ℚ) (xs : List ℚ) : ℚ :=
  (listSum (List.zipWith (fun wi x => wi * (x - ewmMean alpha xs) ^ 2)
      (ewmWeights alpha xs.length) xs.reverse)
    / listSum (ewmWeights alpha xs.length))
  * (listSum (ewmWeights alpha xs.length) ^ 2
      / (listSum (ewmWeights alpha xs.length) ^ 2
          - listSum ((ewmWeights alpha xs.length).map (fun x => x ^ 2))))

/-- The ewmbb band of Ewma._ewm_stats: the array [-1, 1] times the std
value s times sigma_band, plus the ewma estimate. -/
def ewm_band (alpha sigmaBand : ℚ) (xs : List ℚ) (s : ℚ) : ℚ × ℚ :=
  (ewmMean alpha xs - sigmaBand * s, ewmMean alpha xs + sigmaBand * s)

/-- Ewma.detect_signal (src/fract/model/ewma.py lines 19-45) restricted to
its sig_act result: the side is short when the ewma estimate, negated
under contrary, is negative, else long; the action is that side exactly
when the band does not straddle zero, else none. The pos argument is
accepted and, as in the source, never used; s is the std value entering
the band. -/
def detect_signal (alpha sigmaBand : ℚ) (xs : List ℚ) (s : ℚ)
    (pos : Option Side) (contrary : Bool) : Option SigAct :=
  let sigSide :=
    if ewmMean alpha xs * (if contrary then -1 else 1) < 0 then SigAct.short
    else SigAct.long
  if (ewm_band alpha sigmaBand xs s).2 < 0
      ∨ (ewm_band alpha sigmaBand xs s).1 > 0 then some sigSide
  else none

/-- C5: with contrary false, the detector returns long exactly when the
band estimate plus and minus sigma_band times std lies entirely above
zero, short exactly when it lies entirely below zero, and no directional
action exactly when the band straddles zero; sigma_band and the std value
are nonnegative and the std value squares to the debiased variance. -/
theorem detect_signal_band_gated (alpha sigmaBand s : ℚ) (xs : List ℚ)
    (pos : Option Side)
    (hk : 0 ≤ sigmaBand) (hs : 0 ≤ s) (hsq : s * s = ewmVar alpha xs) :
    (detect_signal alpha sigmaBand xs s pos false = some SigAct.long
      ↔ 0 < (ewm_band alpha sigmaBand xs s).1)
    ∧ (detect_signal alpha sigmaBand xs s pos false = some SigAct.short
      ↔ (ewm_band alpha sigmaBand xs s).2 < 0)
    ∧ (detect_signal alpha sigmaBand xs s pos false = none
      ↔ (ewm_band alpha sigmaBand xs s).1 ≤ 0
          ∧ 0 ≤ (ewm_band alpha sigmaBand xs s).2) := by
  have hks : 0 ≤ sigmaBand * s := mul_nonneg hk hs
  unfold detect_signal ewm_band
  simp only [Bool.false_eq_true, if_false, mul_one, gt_iff_lt]
  by_cases h1 : ewmMean alpha xs + sigmaBand * s < 0
  · have hmlt : ewmMean alpha xs < 0 := by linarith
    have hng : ¬ 0 < ewmMean alpha xs - sigmaBand * s := by linarith
    simp [h1, hmlt, hng]
  · by_cases h2 : 0 < ewmMean alpha xs - sigmaBand * s
    · have hmge : ¬ ewmMean alpha xs < 0 := by linarith
      simp [h1, h2, hmge]
      linarith
    · simp [h1, h2]
      constructor <;> linarith

/-- C5 witness: on the constant series [1, 1] the variance is 0, the band
is [1, 1], entirely above zero, and the detector returns long. -/
theorem detect_signal_band_gated_witness :
    detect_signal (1 / 2) 1 [(1 : ℚ), 1] 0 none false = some SigAct.long :=
  ((detect_signal_band_gated (1 / 2) 1 0 [(1 : ℚ), 1] none (by norm_num)
      (le_refl 0)
      (by norm_num [ewmVar, ewmMean, ewmWeights, listSum,
        List.range_succ])).1).mpr
    (by norm_num [ewm_band, ewmMean, ewmWeights, listSum, List.range_succ])

/-- C4 counterexample: an open short position opposes a straddle-free long
signal (band [1, 1] on the series [1, 1]), yet detect_signal returns long,
not closing - the pos argument is ignored by the source. -/
theorem detect_signal_no_closing_on_opposed_position :
    detect_signal (1 / 2) 1 [(1 : ℚ), 1] 0 (some Side.short) false
      = some SigAct.long
    ∧ detect_signal (1 / 2) 1 [(1 : ℚ), 1] 0 (some Side.short) false
      ≠ some SigAct.closing := by
  have h : detect_signal (1 / 2) 1 [(1 : ℚ), 1] 0 (some Side.short) false
      = some SigAct.long := by
    norm_num [detect_signal, ewm_band, ewmMean, ewmWeights, listSum,
      List.range_succ]
  refine ⟨h, ?_⟩
  rw [h]
  simp

/-- C4 amended: the detector ignores the open position entirely - its
result is the same for every pos argument and it never returns closing
(reversals are handled downstream by determine_sig_state, whose closing
branch the Ewma model never triggers); when the band straddles zero it
returns no directional action. -/
theorem detect_signal_ignores_position (alpha sigmaBand s : ℚ)
    (xs : List ℚ) (posA posB : Option Side) (contrary : Bool) :
    detect_signal alpha sigmaBand xs s posA contrary
      = detect_signal alpha sigmaBand xs s posB contrary
    ∧ detect_signal alpha sigmaBand xs s posA contrary ≠ some SigAct.closing
    ∧ ((ewm_band alpha sigmaBand xs s).1 ≤ 0
        ∧ 0 ≤ (ewm_band alpha sigmaBand xs s).2
      → detect_signal alpha sigmaBand xs s posA contrary = none) := by
  refine ⟨rfl, ?_, ?_⟩
  · by_cases hc : ((ewm_band alpha sigmaBand xs s).2 < 0
        ∨ (ewm_band alpha sigmaBand xs s).1 > 0)
    · simp only [detect_signal, hc, if_true]
      split <;> split <;> simp
    · simp [detect_signal, hc]
  · rintro ⟨ha, hb⟩
    have hcond : ¬ ((ewm_band alpha sigmaBand xs s).2 < 0
        ∨ (ewm_band alpha sigmaBand xs s).1 > 0) := by
      push_neg
      exact ⟨hb, ha⟩
    simp [detect_signal, hcond]

/-- C4 witness: on the series [1, -1] with std value 1 the band is
[-4/3, 2/3], straddling zero, and the detector returns no action. -/
theorem detect_signal_ignores_position_witness :
    detect_signal (1 / 2) 1 [(1 : ℚ), -1] 1 (some Side.long) false = none :=
  (detect_signal_ignores_position (1 / 2) 1 1 [(1 : ℚ), -1] (some Side.long)
      none false).2.2
    (by norm_num [ewm_band, ewmMean, ewmWeights, listSum, List.range_succ])

/-- A transaction as consulted by _design_order_units: the instrument it
belongs to and its realized profit or loss. -/
structure Txn where
  instrument : String
  pl : ℚ
deriving DecidableEq, Repr

/-- Modelled from the spec: BettingSystem.calculate_size_by_pl (the module
fract/model/bet.py is imported by base.py but is not under src/). Spec
section 4.2: starting from init_size, the instrument's transaction history
is folded chronologically; each realized loss scales the size up by the
configured multiplier, bounded by the configured cap, and a realized win
resets it to unit_size. -/
def calculate_size_by_pl (mult cap unit_size init_size : ℚ)
    (pls : List ℚ) : ℚ :=
  pls.foldl (fun sz pl => if pl < 0 then min (sz * mult) cap else unit_size)
    init_size

/-- The avail_size local of TraderCore._design_order_units
(src/fract/model/base.py lines 250-257): the ceiling of (available margin
minus balance times the preserve ratio) over the unit cost, floored at
zero. -/
def avail_size (marginAvail balance preserve unitCost : ℚ) : ℚ :=
  max ((⌈(marginAvail - balance * preserve) / unitCost⌉ : ℤ) : ℚ) 0

/-- An entry of the sizes dict of _design_order_units (lines 259-263): the
ceiling of balance times a margin_nav_ratio entry over the unit cost. -/
def ratio_size (balance ratio unitCost : ℚ) : ℚ :=
  ((⌈balance * ratio / unitCost⌉ : ℤ) : ℚ)

/-- The bet_size local of _design_order_units (lines 265-270): the betting
system folded over the transactions filtered to the instrument. -/
def bet_size (mult cap balance unitRatio initRatio unitCost : ℚ)
    (txns : List Txn) (inst : String) : ℚ :=
  calculate_size_by_pl mult cap (ratio_size balance unitRatio unitCost)
    (ratio_size balance initRatio unitCost)
    ((txns.filter (fun t => t.instrument == inst)).map Txn.pl)

/-- The unsigned result of _design_order_units (line 273): the minimum of
bet size, available size and maximumOrderUnits. -/
def order_units_unsigned (mult cap : ℚ) (maxOrderUnits : ℤ)
    (marginAvail balance preserve unitCost unitRatio initRatio : ℚ)
    (txns : List Txn) (inst : String) : ℚ :=
  min
    (min (bet_size mult cap balance unitRatio initRatio unitCost txns inst)
      (avail_size marginAvail balance preserve unitCost))
    ((maxOrderUnits : ℤ) : ℚ)

/-- The sign factor of _design_order_units (line 274): 1 for long, -1 for
short. -/
def side_sign : Side → ℚ
  | Side.long => 1
  | Side.short => -1

/-- TraderCore._design_order_units (src/fract/model/base.py lines
248-275): the int truncation of the signed minimum of bet size, available
margin size and maximumOrderUnits. -/
def design_order_units (mult cap : ℚ) (maxOrderUnits : ℤ)
    (marginAvail balance preserve unitCost unitRatio initRatio : ℚ)
    (txns : List Txn) (inst : String) (side : Side) : ℤ :=
  pyint (order_units_unsigned mult cap maxOrderUnits marginAvail balance
      preserve unitCost unitRatio initRatio txns inst
    * side_sign side)

/-- Folding the betting rule keeps the size nonnegative when the
multiplier, cap and both baseline sizes are nonnegative. -/
theorem calculate_size_by_pl_nonneg (mult cap u : ℚ) (hm : 0 ≤ mult)
    (hcap : 0 ≤ cap) (hu : 0 ≤ u) :
    ∀ (pls : List ℚ) (i : ℚ), 0 ≤ i →
      0 ≤ calculate_size_by_pl mult cap u i pls := by
  intro pls
  induction pls with
  | nil => intro i hi; exact hi
  | cons p ps ih =>
      intro i hi
      show 0 ≤ calculate_size_by_pl mult cap u
        (if p < 0 then min (i * mult) cap else u) ps
      apply ih
      by_cases hp : p < 0
      · rw [if_pos hp]
        exact le_min (mul_nonneg hi hm) hcap
      · rw [if_neg hp]
        exact hu

/-- The betting fold is monotone in both baseline sizes when the
multiplier is nonnegative. -/
theorem calculate_size_by_pl_mono (mult cap : ℚ) (hm : 0 ≤ mult) :
    ∀ (pls : List ℚ) (u₁ u₂ i₁ i₂ : ℚ), u₁ ≤ u₂ → i₁ ≤ i₂ →
      calculate_size_by_pl mult cap u₁ i₁ pls
        ≤ calculate_size_by_pl mult cap u₂ i₂ pls := by
  intro pls
  induction pls with
  | nil => intro u₁ u₂ i₁ i₂ _ hi; exact hi
  | cons p ps ih =>
      intro u₁ u₂ i₁ i₂ hu hi
      show calculate_size_by_pl mult cap u₁
          (if p < 0 then min (i₁ * mult) cap else u₁) ps
        ≤ calculate_size_by_pl mult cap u₂
            (if p < 0 then min (i₂ * mult) cap else u₂) ps
      apply ih _ _ _ _ hu
      by_cases hp : p < 0
      · rw [if_pos hp, if_pos hp]
        exact min_le_min (mul_le_mul_of_nonneg_right hi hm) le_rfl
      · rw [if_neg hp, if_neg hp]
        exact hu

/-- A ratio size is nonnegative for nonnegative balance and ratio and
positive unit cost. -/
theorem ratio_size_nonneg (b r c : ℚ) (hb : 0 ≤ b) (hr : 0 ≤ r)
    (hc : 0 < c) : 0 ≤ ratio_size b r c := by
  unfold ratio_size
  have h : (0 : ℚ) ≤ b * r / c := div_nonneg (mul_nonneg hb hr) hc.le
  exact_mod_cast Int.ceil_nonneg h

/-- A ratio size is monotone in the balance. -/
theorem ratio_size_mono (b₁ b₂ r c : ℚ) (hr : 0 ≤ r) (hc : 0 < c)
    (h : b₁ ≤ b₂) : ratio_size b₁ r c ≤ ratio_size b₂ r c := by
  unfold ratio_size
  have hdiv : b₁ * r / c ≤ b₂ * r / c := by gcongr
  exact_mod_cast Int.ceil_mono hdiv

/-- Truncating the signed size and taking the absolute value gives the
floor of the unsigned size, for either side. -/
theorem pyint_signed_natAbs (q : ℚ) (hq : 0 ≤ q) (side : Side) :
    ((pyint (q * side_sign side)).natAbs : ℤ) = ⌊q⌋ := by
  cases side
  · simp only [side_sign, mul_one, pyint, if_pos hq]
    exact Int.natAbs_of_nonneg (Int.floor_nonneg.mpr hq)
  · rcases eq_or_lt_of_le hq with h0 | h0
    · rw [← h0]
      norm_num [pyint, side_sign]
    · have hx : q * side_sign Side.short = -q := by
        simp [side_sign]
      rw [hx]
      have hneg : ¬ (0 ≤ -q) := by linarith
      simp only [pyint, if_neg hneg, Int.ceil_neg, Int.natAbs_neg]
      exact Int.natAbs_of_nonneg (Int.floor_nonneg.mpr hq)

/-- The unsigned order size is nonnegative and the signed result has
absolute value equal to its floor, under the natural sign conditions on
the configuration. -/
theorem design_order_units_natAbs_eq (mult cap : ℚ) (maxOrderUnits : ℤ)
    (marginAvail balance preserve unitCost unitRatio initRatio : ℚ)
    (txns : List Txn) (inst : String) (side : Side)
    (hm : 0 ≤ mult) (hcap : 0 ≤ cap) (hb : 0 ≤ balance)
    (hur : 0 ≤ unitRatio) (hir : 0 ≤ initRatio) (hc : 0 < unitCost)
    (hmax : 0 ≤ maxOrderUnits) :
    0 ≤ order_units_unsigned mult cap maxOrderUnits marginAvail balance
        preserve unitCost unitRatio initRatio txns inst
    ∧ ((design_order_units mult cap maxOrderUnits marginAvail balance
          preserve unitCost unitRatio initRatio txns inst side).natAbs : ℤ)
      = ⌊order_units_unsigned mult cap maxOrderUnits marginAvail balance
          preserve unitCost unitRatio initRatio txns inst⌋ := by
  have hbet : 0 ≤ bet_size mult cap balance unitRatio initRatio unitCost
      txns inst :=
    calculate_size_by_pl_nonneg mult cap _ hm hcap
      (ratio_size_nonneg balance unitRatio unitCost hb hur hc) _ _
      (ratio_size_nonneg balance initRatio unitCost hb hir hc)
  have havail : 0 ≤ avail_size marginAvail balance preserve unitCost :=
    le_max_right _ _
  have hmaxq : (0 : ℚ) ≤ ((maxOrderUnits : ℤ) : ℚ) := by exact_mod_cast hmax
  have hm3 : 0 ≤ order_units_unsigned mult cap maxOrderUnits marginAvail
      balance preserve unitCost unitRatio initRatio txns inst :=
    le_min (le_min hbet havail) hmaxq
  exact ⟨hm3, pyint_signed_natAbs _ hm3 side⟩

/-- C2 amended: the implied margin of the returned unit count is strictly
less than the positive part of (available margin minus the reserve) plus
one unit cost: the available-margin size is computed with a ceiling, not a
floor, so the implied margin can exceed the headroom by up to one unit
cost (and is positive headroom only up to that rounding). -/
theorem design_order_units_margin_bound (mult cap : ℚ) (maxOrderUnits : ℤ)
    (marginAvail balance preserve unitCost unitRatio initRatio : ℚ)
    (txns : List Txn) (inst : String) (side : Side)
    (hm : 0 ≤ mult) (hcap : 0 ≤ cap) (hb : 0 ≤ balance)
    (hur : 0 ≤ unitRatio) (hir : 0 ≤ initRatio) (hc : 0 < unitCost)
    (hmax : 0 ≤ maxOrderUnits) :
    ((design_order_units mult cap maxOrderUnits marginAvail balance preserve
        unitCost unitRatio initRatio txns inst side).natAbs : ℚ) * unitCost
      < max (marginAvail - balance * preserve) 0 + unitCost := by
  obtain ⟨hm3, hnat⟩ := design_order_units_natAbs_eq mult cap maxOrderUnits
    marginAvail balance preserve unitCost unitRatio initRatio txns inst side
    hm hcap hb hur hir hc hmax
  have hfl : ((design_order_units mult cap maxOrderUnits marginAvail balance
      preserve unitCost unitRatio initRatio txns inst side).natAbs : ℚ)
      ≤ order_units_unsigned mult cap maxOrderUnits marginAvail balance
          preserve unitCost unitRatio initRatio txns inst := by
    have h2 : ((design_order_units mult cap maxOrderUnits marginAvail
        balance preserve unitCost unitRatio initRatio txns inst
        side).natAbs : ℚ)
        = (((design_order_units mult cap maxOrderUnits marginAvail balance
            preserve unitCost unitRatio initRatio txns inst
            side).natAbs : ℤ) : ℚ) :=
      (Int.cast_natCast _).symm
    rw [h2, hnat]
    exact Int.floor_le _
  have hle_avail : order_units_unsigned mult cap maxOrderUnits marginAvail
      balance preserve unitCost unitRatio initRatio txns inst
      ≤ avail_size marginAvail balance preserve unitCost :=
    le_trans (min_le_left _ _) (min_le_right _ _)
  have hkey : avail_size marginAvail balance preserve unitCost * unitCost
      < max (marginAvail - balance * preserve) 0 + unitCost := by
    unfold avail_size
    rcases le_or_lt
        ((⌈(marginAvail - balance * preserve) / unitCost⌉ : ℤ) : ℚ) 0 with
      hA | hA
    · rw [max_eq_right hA]
      have h0 : (0 : ℚ) ≤ max (marginAvail - balance * preserve) 0 :=
        le_max_right _ _
      linarith
    · rw [max_eq_left hA.le]
      have hlt : ((⌈(marginAvail - balance * preserve) / unitCost⌉ : ℤ) : ℚ)
          < (marginAvail - balance * preserve) / unitCost + 1 :=
        Int.ceil_lt_add_one _
      have hmul : ((⌈(marginAvail - balance * preserve) / unitCost⌉ : ℤ) : ℚ)
            * unitCost
          < ((marginAvail - balance * preserve) / unitCost + 1) * unitCost :=
        mul_lt_mul_of_pos_right hlt hc
      have hexp : ((marginAvail - balance * preserve) / unitCost + 1)
            * unitCost = (marginAvail - balance * preserve) + unitCost := by
        rw [add_mul, one_mul, div_mul_cancel₀ _ (ne_of_gt hc)]
      have hHmax : marginAvail - balance * preserve
          ≤ max (marginAvail - balance * preserve) 0 := le_max_left _ _
      linarith
  have hstep : ((design_order_units mult cap maxOrderUnits marginAvail
      balance preserve unitCost unitRatio initRatio txns inst
      side).natAbs : ℚ) * unitCost
      ≤ avail_size marginAvail balance preserve unitCost * unitCost :=
    mul_le_mul_of_nonneg_right (le_trans hfl hle_avail) hc.le
  linarith

/-- C2 witness: with balance 2, no reserve, unit cost 3, headroom 10 and
an empty transaction history the bound of the amended claim holds. -/
theorem design_order_units_margin_bound_witness :
    ((design_order_units 2 100 100 10 2 0 3 6 6 [] "EUR_USD"
        Side.long).natAbs : ℚ) * 3 < max (10 - 2 * 0) 0 + 3 :=
  design_order_units_margin_bound 2 100 100 10 2 0 3 6 6 [] "EUR_USD"
    Side.long (by norm_num) (by norm_num) (by norm_num) (by norm_num)
    (by norm_num) (by norm_num) (by norm_num)

/-- C2 counterexample: with headroom 10 and unit cost 3 the ceiling gives
4 units, whose implied margin 12 exceeds the headroom 10: the claimed
bound (implied margin at most available margin minus reserve) fails. -/
theorem design_order_units_exceeds_margin_reserve :
    design_order_units 2 100 100 10 2 0 3 6 6 [] "EUR_USD" Side.long = 4
    ∧ ¬ (((design_order_units 2 100 100 10 2 0 3 6 6 [] "EUR_USD"
          Side.long).natAbs : ℚ) * 3 ≤ 10 - 2 * 0) := by
  have hceil1 : (⌈((10 : ℚ) - 2 * 0) / 3⌉ : ℤ) = 4 := by
    norm_num [Int.ceil_eq_iff]
  have hceil2 : (⌈(2 : ℚ) * 6 / 3⌉ : ℤ) = 4 := by
    norm_num
  have hA : avail_size 10 2 0 3 = 4 := by
    unfold avail_size
    rw [hceil1]
    norm_num
  have hR : ratio_size 2 6 3 = 4 := by
    unfold ratio_size
    rw [hceil2]
    norm_num
  have hB : bet_size 2 100 2 6 6 3 [] "EUR_USD" = 4 := by
    unfold bet_size
    rw [hR]
    rfl
  have hU : order_units_unsigned 2 100 100 10 2 0 3 6 6 [] "EUR_USD" = 4 := by
    unfold order_units_unsigned
    rw [hA, hB]
    norm_num
  have hval : design_order_units 2 100 100 10 2 0 3 6 6 [] "EUR_USD"
      Side.long = 4 := by
    unfold design_order_units
    rw [hU]
    norm_num [side_sign, pyint]
  refine ⟨hval, ?_⟩
  rw [hval]
  norm_num

/-- C3 amended: with a zero preserve ratio the absolute order size is
monotone non-decreasing in the balance (with a positive preserve ratio
the margin-headroom cap shrinks as balance grows, so the monotonicity of
the claim fails in general), and for every balance and preserve ratio the
absolute size never exceeds maximumOrderUnits. -/
theorem design_order_units_mono_and_capped (mult cap : ℚ)
    (maxOrderUnits : ℤ) (marginAvail unitCost unitRatio initRatio : ℚ)
    (txns : List Txn) (inst : String) (side : Side)
    (hm : 0 ≤ mult) (hcap : 0 ≤ cap) (hur : 0 ≤ unitRatio)
    (hir : 0 ≤ initRatio) (hc : 0 < unitCost) (hmax : 0 ≤ maxOrderUnits) :
    (∀ b₁ b₂ : ℚ, 0 ≤ b₁ → b₁ ≤ b₂ →
      (design_order_units mult cap maxOrderUnits marginAvail b₁ 0 unitCost
          unitRatio initRatio txns inst side).natAbs
        ≤ (design_order_units mult cap maxOrderUnits marginAvail b₂ 0
            unitCost unitRatio initRatio txns inst side).natAbs)
    ∧ (∀ balance preserve : ℚ, 0 ≤ balance →
        ((design_order_units mult cap maxOrderUnits marginAvail balance
            preserve unitCost unitRatio initRatio txns inst
            side).natAbs : ℤ) ≤ maxOrderUnits) := by
  constructor
  · intro b₁ b₂ hb₁ h12
    obtain ⟨-, hnat₁⟩ := design_order_units_natAbs_eq mult cap maxOrderUnits
      marginAvail b₁ 0 unitCost unitRatio initRatio txns inst side hm hcap
      hb₁ hur hir hc hmax
    obtain ⟨-, hnat₂⟩ := design_order_units_natAbs_eq mult cap maxOrderUnits
      marginAvail b₂ 0 unitCost unitRatio initRatio txns inst side hm hcap
      (le_trans hb₁ h12) hur hir hc hmax
    have havail : avail_size marginAvail b₁ 0 unitCost
        = avail_size marginAvail b₂ 0 unitCost := by
      simp [avail_size]
    have hbet : bet_size mult cap b₁ unitRatio initRatio unitCost txns inst
        ≤ bet_size mult cap b₂ unitRatio initRatio unitCost txns inst := by
      unfold bet_size
      exact calculate_size_by_pl_mono mult cap hm _ _ _ _ _
        (ratio_size_mono b₁ b₂ unitRatio unitCost hur hc h12)
        (ratio_size_mono b₁ b₂ initRatio unitCost hir hc h12)
    have huns : order_units_unsigned mult cap maxOrderUnits marginAvail b₁ 0
        unitCost unitRatio initRatio txns inst
        ≤ order_units_unsigned mult cap maxOrderUnits marginAvail b₂ 0
            unitCost unitRatio initRatio txns inst := by
      unfold order_units_unsigned
      rw [havail]
      exact min_le_min (min_le_min hbet le_rfl) le_rfl
    have hz : ((design_order_units mult cap maxOrderUnits marginAvail b₁ 0
        unitCost unitRatio initRatio txns inst side).natAbs : ℤ)
        ≤ ((design_order_units mult cap maxOrderUnits marginAvail b₂ 0
            unitCost unitRatio initRatio txns inst side).natAbs : ℤ) := by
      rw [hnat₁, hnat₂]
      exact Int.floor_le_floor huns
    exact_mod_cast hz
  · intro balance preserve hb
    obtain ⟨-, hnat⟩ := design_order_units_natAbs_eq mult cap maxOrderUnits
      marginAvail balance preserve unitCost unitRatio initRatio txns inst
      side hm hcap hb hur hir hc hmax
    rw [hnat]
    have hle : order_units_unsigned mult cap maxOrderUnits marginAvail
        balance preserve unitCost unitRatio initRatio txns inst
        ≤ ((maxOrderUnits : ℤ) : ℚ) := min_le_right _ _
    have h3 := Int.floor_le_floor hle
    rwa [Int.floor_intCast] at h3

/-- C3 witness: monotonicity with zero preserve ratio between balances 1
and 2, and the maximumOrderUnits cap at balance 2. -/
theorem design_order_units_mono_and_capped_witness :
    (design_order_units 2 100 1000 10 1 0 1 10 10 [] "EUR_USD"
        Side.long).natAbs
      ≤ (design_order_units 2 100 1000 10 2 0 1 10 10 [] "EUR_USD"
          Side.long).natAbs
    ∧ ((design_order_units 2 100 1000 10 2 0 1 10 10 [] "EUR_USD"
          Side.long).natAbs : ℤ) ≤ 1000 :=
  ⟨(design_order_units_mono_and_capped 2 100 1000 10 1 10 10 [] "EUR_USD"
      Side.long (by norm_num) (by norm_num) (by norm_num) (by norm_num)
      (by norm_num) (by norm_num)).1 1 2 (by norm_num) (by norm_num),
    (design_order_units_mono_and_capped 2 100 1000 10 1 10 10 [] "EUR_USD"
      Side.long (by norm_num) (by norm_num) (by norm_num) (by norm_num)
      (by norm_num) (by norm_num)).2 2 0 (by norm_num)⟩

/-- C3 counterexample: with preserve ratio 1/2 the size drops from 9 to 0
as the balance rises from 2 to 20 (the reserve grows with balance and
eats the margin headroom), so the claimed monotonicity in balance fails. -/
theorem design_order_units_not_monotone_in_balance :
    (2 : ℚ) ≤ 20
    ∧ design_order_units 2 10000 1000 10 2 (1 / 2) 1 10 10 [] "EUR_USD"
        Side.long = 9
    ∧ design_order_units 2 10000 1000 10 20 (1 / 2) 1 10 10 [] "EUR_USD"
        Side.long = 0
    ∧ ¬ ((design_order_units 2 10000 1000 10 2 (1 / 2) 1 10 10 [] "EUR_USD"
          Side.long).natAbs
        ≤ (design_order_units 2 10000 1000 10 20 (1 / 2) 1 10 10 []
            "EUR_USD" Side.long).natAbs) := by
  have hA1 : avail_size 10 2 (1 / 2) 1 = 9 := by
    unfold avail_size
    norm_num
  have hR1 : ratio_size 2 10 1 = 20 := by
    unfold ratio_size
    norm_num
  have hB1 : bet_size 2 10000 2 10 10 1 [] "EUR_USD" = 20 := by
    unfold bet_size
    rw [hR1]
    rfl
  have hU1 : order_units_unsigned 2 10000 1000 10 2 (1 / 2) 1 10 10 []
      "EUR_USD" = 9 := by
    unfold order_units_unsigned
    rw [hA1, hB1]
    norm_num
  have hf1 : design_order_units 2 10000 1000 10 2 (1 / 2) 1 10 10 []
      "EUR_USD" Side.long = 9 := by
    unfold design_order_units
    rw [hU1]
    norm_num [side_sign, pyint]
  have hA2 : avail_size 10 20 (1 / 2) 1 = 0 := by
    unfold avail_size
    norm_num
  have hR2 : ratio_size 20 10 1 = 200 := by
    unfold ratio_size
    norm_num
  have hB2 : bet_size 2 10000 20 10 10 1 [] "EUR_USD" = 200 := by
    unfold bet_size
    rw [hR2]
    rfl
  have hU2 : order_units_unsigned 2 10000 1000 10 20 (1 / 2) 1 10 10 []
      "EUR_USD" = 0 := by
    unfold order_units_unsigned
    rw [hA2, hB2]
    norm_num
  have hf2 : design_order_units 2 10000 1000 10 20 (1 / 2) 1 10 10 []
      "EUR_USD" Side.long = 0 := by
    unfold design_order_units
    rw [hU2]
    norm_num [side_sign, pyint]
  refine ⟨by norm_num, hf1, hf2, ?_⟩
  rw [hf1, hf2]
  norm_num
